import Mathlib

/-!
Verification of the CivitasDashboard construction-project dashboard
(`src/main.py`) against its natural-language specification.

The data model and the operations are embedded shallowly: Python dicts
become structures, monetary amounts and progress values become rationals,
Python `round(x, 2)` becomes `round2` (round half to even on the scaled
value, as Python's `round` does on exact decimal values), and the
mutating Streamlit handlers become pure functions from state to state
plus the list of user-facing messages they emit.
-/

namespace Civitas

/-- Round a rational to the nearest integer, ties to even
(the rounding mode of Python's built-in `round`). -/
def roundHalfEven (q : ℚ) : ℤ :=
  if q - (⌊q⌋ : ℚ) < 1/2 then ⌊q⌋
  else if 1/2 < q - (⌊q⌋ : ℚ) then ⌊q⌋ + 1
  else if ⌊q⌋ % 2 = 0 then ⌊q⌋ else ⌊q⌋ + 1

/-- Python `round(q, 2)`: round to two decimal places, ties to even. -/
def round2 (q : ℚ) : ℚ := ((roundHalfEven (q * 100) : ℤ) : ℚ) / 100

/-- A calendar date, as produced by
`datetime.strptime(s, "%Y-%m-%d").date()` in `register_project`. -/
structure Date where
  year : ℕ
  month : ℕ
  day : ℕ
deriving DecidableEq, Repr

/-- Python `date` comparison: lexicographic on (year, month, day). -/
def Date.isBefore (a b : Date) : Bool :=
  a.year < b.year ∨ (a.year = b.year ∧
    (a.month < b.month ∨ (a.month = b.month ∧ a.day < b.day)))

/-- Gregorian leap-year rule used by Python's `datetime` validation. -/
def isLeapYear (y : ℕ) : Bool := y % 4 = 0 ∧ (y % 100 ≠ 0 ∨ y % 400 = 0)

/-- Number of days in a month, used to validate the day field. -/
def daysInMonth (y m : ℕ) : ℕ :=
  if m = 2 then (if isLeapYear y then 29 else 28)
  else if m = 4 ∨ m = 6 ∨ m = 9 ∨ m = 11 then 30
  else 31

/-- Value of a list of decimal digit characters. -/
def digitsVal (cs : List Char) : ℕ :=
  cs.foldl (fun n c => 10 * n + (c.toNat - 48)) 0

/-- Split a character list at every occurrence of `sep`
(the behaviour of `str.split(sep)` on a one-character separator). -/
def splitOnChar (sep : Char) : List Char → List (List Char)
  | [] => [[]]
  | c :: rest =>
    match splitOnChar sep rest with
    | [] => [[c]]
    | g :: gs => if c = sep then [] :: g :: gs else (c :: g) :: gs

/-- Numeric value of a nonempty all-digit field, `none` otherwise. -/
def digitsToNat (cs : List Char) : Option ℕ :=
  if cs ≠ [] ∧ cs.all Char.isDigit then some (digitsVal cs) else none

/-- `datetime.strptime(s, "%Y-%m-%d").date()`: three dash-separated
all-digit fields; year of at most 4 digits and at least 1, month 1..12,
day valid for the month.  Returns `none` exactly when `strptime` (or the
`datetime` constructor) raises `ValueError`. -/
def parseDate (s : String) : Option Date :=
  match (splitOnChar '-' s.toList).map digitsToNat with
  | [some y, some m, some d] =>
    if 1 ≤ y ∧ y ≤ 9999 ∧ 1 ≤ m ∧ m ≤ 12 ∧ 1 ≤ d ∧ d ≤ daysInMonth y m
    then some ⟨y, m, d⟩ else none
  | _ => none

/-- `date.isoformat()`: zero-padded `YYYY-MM-DD`. -/
def pad2 (n : ℕ) : String := if n < 10 then "0" ++ toString n else toString n

def pad4 (n : ℕ) : String :=
  if n < 10 then "000" ++ toString n
  else if n < 100 then "00" ++ toString n
  else if n < 1000 then "0" ++ toString n
  else toString n

def Date.isoformat (d : Date) : String :=
  pad4 d.year ++ "-" ++ pad2 d.month ++ "-" ++ pad2 d.day

/-- The exact decimal value a parsed float literal denotes:
a sign, the mantissa digits read as one natural number, the number of
those digits that sit after the decimal point, and a decimal exponent. -/
structure FloatRepr where
  negative : Bool
  mantissa : ℕ
  fracDigits : ℕ
  exponent : ℤ
deriving DecidableEq, Repr

/-- Strip leading and trailing whitespace, as `float` does. -/
def trimChars (cs : List Char) : List Char :=
  ((cs.dropWhile Char.isWhitespace).reverse.dropWhile Char.isWhitespace).reverse

/-- The syntactic part of Python `float(s)` on ordinary decimal literals:
optional surrounding whitespace, optional sign, digits with an optional
decimal point, and an optional decimal exponent.  Returns `none` exactly
when `float` raises `ValueError`.  The special literals `inf`/`nan` and
digit-group underscores fall outside the exact rational model and are
not covered. -/
def parseFloatRepr (s : String) : Option FloatRepr :=
  let cs := trimChars s.toList
  let signAndRest : Bool × List Char :=
    match cs with
    | '-' :: rest => (true, rest)
    | '+' :: rest => (false, rest)
    | _ => (false, cs)
  let body := signAndRest.2
  let mant := body.takeWhile (fun c => c ≠ 'e' ∧ c ≠ 'E')
  let expPart := body.drop mant.length
  let intPart := mant.takeWhile (fun c => c ≠ '.')
  let fracPart : Option (List Char) :=
    match mant.drop intPart.length with
    | '.' :: f => some f
    | [] => some []
    | _ => none
  match fracPart with
  | none => none
  | some frac =>
    if (intPart ++ frac).isEmpty ∨ ¬ (intPart ++ frac).all Char.isDigit
    then none
    else
      let digits := digitsVal (intPart ++ frac)
      match expPart with
      | [] => some ⟨signAndRest.1, digits, frac.length, 0⟩
      | _ :: ecs =>
        let eSignAndRest : Bool × List Char :=
          match ecs with
          | '-' :: rest => (true, rest)
          | '+' :: rest => (false, rest)
          | _ => (false, ecs)
        if eSignAndRest.2.isEmpty ∨ ¬ eSignAndRest.2.all Char.isDigit
        then none
        else
          let e : ℤ := (if eSignAndRest.1 then -1 else 1) * (digitsVal eSignAndRest.2 : ℤ)
          some ⟨signAndRest.1, digits, frac.length, e⟩

/-- The rational value of a parsed float literal. -/
def FloatRepr.val (r : FloatRepr) : ℚ :=
  let base : ℚ := (r.mantissa : ℚ) / 10 ^ r.fracDigits
  let scaled : ℚ :=
    if 0 ≤ r.exponent then base * 10 ^ r.exponent.toNat
    else base / 10 ^ (-r.exponent).toNat
  if r.negative then -scaled else scaled

/-- Python `float(s)` on ordinary decimal literals, as an exact rational. -/
def parseFloat (s : String) : Option ℚ :=
  (parseFloatRepr s).map FloatRepr.val

/-- One entry of `project["elements_progress"]`: `{progress, weight}`. -/
structure ElementProgress where
  progress : ℚ
  weight : ℚ
deriving DecidableEq, Repr

/-- One entry of `project["task_list"]`. -/
structure Task where
  task_name : String
  status : String
  assignee : String
  deadline : Date
deriving DecidableEq, Repr

/-- One entry of `project["interim_claims"]`:
`{"amount": ..., "date": ..., "status": ...}`. -/
structure Claim where
  amount : ℚ
  date : Date
  status : String
deriving DecidableEq, Repr

/-- A project record as built by `register_project`. -/
structure Project where
  name : String
  id : String
  client : String
  start_date : String
  end_date : String
  budget : ℚ
  progress : ℚ
  task_list : List Task
  interim_claims : List Claim
  reports : List String
  elements_progress : List (String × ElementProgress)
deriving DecidableEq, Repr

/-- `sum(progress["progress"] * progress["weight"] for ...)`. -/
def weightedSum (eps : List (String × ElementProgress)) : ℚ :=
  (eps.map (fun e => e.2.progress * e.2.weight)).sum

/-- `sum(progress["weight"] for ...)`. -/
def totalWeight (eps : List (String × ElementProgress)) : ℚ :=
  (eps.map (fun e => e.2.weight)).sum

/-- `update_progress` (src/main.py lines 26-32): 0 for an empty mapping,
otherwise the weighted average rounded to 2 decimals when the total
weight is positive, and 0 otherwise. -/
def update_progress (p : Project) : ℚ :=
  if p.elements_progress.length = 0 then 0
  else
    if 0 < totalWeight p.elements_progress
    then round2 (weightedSum p.elements_progress / totalWeight p.elements_progress)
    else 0

/-- The text fields of the registration form, as collected into the
`inputs` dict in `main` before calling `register_project`. -/
structure RegInputs where
  projectName : String
  projectId : String
  clientName : String
  startDate : String
  endDate : String
  budget : String
deriving DecidableEq, Repr

/-- Outcome reported to the user (`st.success` / `st.error`). -/
inductive RegOutcome where
  | ok (msg : String)
  | err (msg : String)
deriving DecidableEq, Repr

/-- The project dict literal built by `register_project` on success. -/
def mkProject (name id client : String) (sd ed : Date) (budget : ℚ) : Project :=
  { name := name
    id := id
    client := client
    start_date := sd.isoformat
    end_date := ed.isoformat
    budget := budget
    progress := 0
    task_list := []
    interim_claims := []
    reports := []
    elements_progress := [] }

/-- `register_project` (src/main.py lines 37-77).  Date parsing happens
first; an unparsable date or `end_date < start_date` raises `ValueError`,
caught by the outer handler.  The budget is then parsed and validated by
the inner `try`, whose `except` reports and returns without mutating.
On success the new project is appended and the collection saved.  The
result is the new collection together with the reported outcome. -/
def register_project (projects : List Project) (inputs : RegInputs) :
    List Project × RegOutcome :=
  match parseDate inputs.startDate with
  | none => (projects, .err "Input Error: bad start date")
  | some sd =>
    match parseDate inputs.endDate with
    | none => (projects, .err "Input Error: bad end date")
    | some ed =>
      if ed.isBefore sd then
        (projects, .err "Input Error: End date cannot be earlier than start date.")
      else
        match parseFloat inputs.budget with
        | none => (projects, .err "Please enter a valid budget amount (positive number).")
        | some b =>
          if b ≤ 0 then
            (projects, .err "Please enter a valid budget amount (positive number).")
          else
            (projects ++ [mkProject inputs.projectName inputs.projectId
                inputs.clientName sd ed (round2 b)],
             .ok "Project registered successfully!")

/-- Appending a task (src/main.py line 108): unconditional. -/
def add_task (p : Project) (t : Task) : Project :=
  { p with task_list := p.task_list ++ [t] }

/-- The `manage_tasks` loop (src/main.py lines 92-110) with the add-task
button pressed: every project whose id matches receives the task; a
success message is emitted per match. -/
def manage_tasks_add (projects : List Project) (project_id : String) (t : Task) :
    List Project × List String :=
  match projects with
  | [] => ([], [])
  | p :: rest =>
    let r := manage_tasks_add rest project_id t
    if p.id = project_id
    then (add_task p t :: r.1, ("Task added to project " ++ p.name) :: r.2)
    else (p :: r.1, r.2)

/-- Adding an interim claim to one project (src/main.py lines 130-138):
rejected when the amount exceeds the remaining budget, otherwise the
claim is appended and the budget decremented.  The boolean records
whether the claim was accepted. -/
def add_claim (p : Project) (amount : ℚ) (date : Date) (status : String) :
    Project × Bool :=
  if p.budget < amount then (p, false)
  else
    ({ p with
        interim_claims := p.interim_claims ++ [⟨amount, date, status⟩]
        budget := p.budget - amount },
     true)

/-- The `manage_interim_claims` loop with the add-claim button pressed:
every matching project goes through `add_claim`; an error message is
emitted on rejection, a success message on acceptance. -/
def manage_interim_claims_add (projects : List Project) (project_id : String)
    (amount : ℚ) (date : Date) (status : String) : List Project × List String :=
  match projects with
  | [] => ([], [])
  | p :: rest =>
    let r := manage_interim_claims_add rest project_id amount date status
    if p.id = project_id then
      let a := add_claim p amount date status
      if a.2
      then (a.1 :: r.1, ("Interim Claim added to project " ++ p.name) :: r.2)
      else (a.1 :: r.1, "Claim amount exceeds the remaining budget!" :: r.2)
    else (p :: r.1, r.2)

/-- Overwrite the status of the claim at position `i`, leaving every
other field and every other claim alone (out-of-range indices change
nothing, matching a list that has no such position). -/
def setStatusAt (cs : List Claim) (i : ℕ) (s : String) : List Claim :=
  match cs, i with
  | [], _ => []
  | c :: rest, 0 => { c with status := s } :: rest
  | c :: rest, n + 1 => c :: setStatusAt rest n s

/-- The update-status action (src/main.py line 154):
`project["interim_claims"][i]["status"] = new_status`. -/
def update_status (p : Project) (i : ℕ) (new_status : String) : Project :=
  { p with interim_claims := setStatusAt p.interim_claims i new_status }

/-- The `manage_interim_claims` loop with the update-status button
pressed: the claim at the chosen index of every matching project gets
the new status. -/
def manage_interim_claims_update (projects : List Project) (project_id : String)
    (i : ℕ) (new_status : String) : List Project × List String :=
  match projects with
  | [] => ([], [])
  | p :: rest =>
    let r := manage_interim_claims_update rest project_id i new_status
    if p.id = project_id
    then (update_status p i new_status :: r.1,
          ("Claim status updated to " ++ new_status) :: r.2)
    else (p :: r.1, r.2)

/-- `display_total_claims` (src/main.py line 161):
`sum(claim["amount"] for claim in project["interim_claims"])`. -/
def total_claims (p : Project) : ℚ :=
  (p.interim_claims.map Claim.amount).sum

/-- File contents, abstracted as byte lists. -/
abbrev Bytes := List ℕ

/-- The filesystem fragment touched by uploads: at most one content per
path, newest first. -/
abbrev FS := List (String × Bytes)

/-- `open(path, "wb")` followed by a full write: the path now maps to
exactly this content, any previous content is gone. -/
def fsWrite (fs : FS) (path : String) (content : Bytes) : FS :=
  (path, content) :: fs.filter (fun e => e.1 ≠ path)

/-- Read back a stored file. -/
def fsRead (fs : FS) (path : String) : Option Bytes :=
  (fs.find? (fun e => e.1 = path)).map Prod.snd

/-- The storage path of `upload_project_document` (src/main.py line
172): `f"project_docs/\x7bproject_id\x7d/\x7bdocument_name\x7d"`. -/
def doc_path (project_id document_name : String) : String :=
  "project_docs/" ++ project_id ++ "/" ++ document_name

/-- The body of the `upload_project_document` match (src/main.py lines
170-177): write the file under the deterministic path and append that
path to the project's reports. -/
def upload_one (fs : FS) (p : Project) (document_name : String) (content : Bytes) :
    FS × Project :=
  let path := doc_path p.id document_name
  (fsWrite fs path content, { p with reports := p.reports ++ [path] })

/-- `upload_project_document` (src/main.py lines 167-189): the loop over
all projects, writing the file and recording the path for every project
whose id matches, with a success message per match. -/
def upload_project_document (fs : FS) (projects : List Project)
    (project_id document_name : String) (content : Bytes) :
    FS × List Project × List String :=
  match projects with
  | [] => (fs, [], [])
  | p :: rest =>
    if p.id = project_id then
      let u := upload_one fs p document_name content
      let r := upload_project_document u.1 rest project_id document_name content
      (r.1, u.2 :: r.2.1, ("Document uploaded: " ++ document_name) :: r.2.2)
    else
      let r := upload_project_document fs rest project_id document_name content
      (r.1, p :: r.2.1, r.2.2)

/-- One claims-ledger interaction on a single project: either the
add-claim button (a failed add leaves the project unchanged) or the
update-status button. -/
inductive ClaimOp where
  | add (amount : ℚ) (date : Date) (status : String)
  | setStatus (i : ℕ) (s : String)

/-- Apply one claims-ledger interaction. -/
def applyClaimOp (p : Project) : ClaimOp → Project
  | .add a d s => (add_claim p a d s).1
  | .setStatus i s => update_status p i s

/-- The amount an operation tries to claim (0 for status updates). -/
def ClaimOp.reqAmount : ClaimOp → ℚ
  | .add a _ _ => a
  | .setStatus _ _ => 0

/-! Concrete sample data, used to instantiate the theorems below. -/

def exDate : Date := ⟨2024, 5, 1⟩

/-- A registered project with budget 5000 and no claims yet. -/
def exP : Project :=
  { name := "Bridge"
    id := "P1"
    client := "Acme"
    start_date := "2024-01-01"
    end_date := "2024-06-01"
    budget := 5000
    progress := 0
    task_list := []
    interim_claims := []
    reports := []
    elements_progress := [] }

/-- A project with two claims on the ledger. -/
def exPC : Project :=
  { exP with interim_claims := [⟨3000, exDate, "Pending"⟩, ⟨2000, exDate, "Approved"⟩] }

/-- One element with negative weight: the total weight is -1. -/
def negWeightP : Project :=
  { exP with elements_progress := [("e", ⟨10, -1⟩)] }

/-- One element whose progress value is 200. -/
def overP : Project :=
  { exP with elements_progress := [("e", ⟨200, 1⟩)] }

/-- The worked example of the specification:
foundation 50% at weight 2, roof 100% at weight 1. -/
def specExP : Project :=
  { exP with elements_progress := [("foundation", ⟨50, 2⟩), ("roof", ⟨100, 1⟩)] }

/-- Registration input whose end date precedes its start date. -/
def backwardsIn : RegInputs :=
  ⟨"Bridge", "P1", "Acme", "2024-06-01", "2024-01-01", "1000"⟩

/-- Registration input with a non-numeric budget. -/
def badBudgetIn : RegInputs :=
  ⟨"Bridge", "P1", "Acme", "2024-01-01", "2024-06-01", "abc"⟩

/-- Fully valid registration input with budget 10000. -/
def goodIn : RegInputs :=
  ⟨"Bridge", "P1", "Acme", "2024-01-01", "2024-06-01", "10000"⟩

/-- The project that registering `goodIn` creates. -/
def goodInP : Project :=
  mkProject "Bridge" "P1" "Acme" ⟨2024, 1, 1⟩ ⟨2024, 6, 1⟩
    (round2 (FloatRepr.val ⟨false, 10000, 0, 0⟩))

/-! Helper lemmas. -/

theorem setStatusAt_length (cs : List Claim) (i : ℕ) (s : String) :
    (setStatusAt cs i s).length = cs.length := by
  induction cs generalizing i with
  | nil => simp [setStatusAt]
  | cons c rest ih =>
    cases i with
    | zero => simp [setStatusAt]
    | succ n => simp [setStatusAt, ih]

theorem setStatusAt_map_amount (cs : List Claim) (i : ℕ) (s : String) :
    (setStatusAt cs i s).map Claim.amount = cs.map Claim.amount := by
  induction cs generalizing i with
  | nil => simp [setStatusAt]
  | cons c rest ih =>
    cases i with
    | zero => simp [setStatusAt]
    | succ n => simp [setStatusAt, ih]

theorem setStatusAt_eq_set (cs : List Claim) (i : ℕ) (s : String)
    (h : i < cs.length) :
    setStatusAt cs i s = cs.set i { cs.get ⟨i, h⟩ with status := s } := by
  induction cs generalizing i with
  | nil => simp at h
  | cons c rest ih =>
    cases i with
    | zero => simp [setStatusAt]
    | succ n =>
      have hn : n < rest.length := by simpa using h
      simp [setStatusAt, ih n hn]

/-! C1. -/

/-- C1: adding a claim whose amount is at most the remaining budget
appends the claim record to `interim_claims` and decreases the budget by
exactly that amount; when the amount equals the budget the new budget is
0. -/
theorem add_claim_within_budget (p : Project) (a : ℚ) (d : Date) (s : String)
    (h : a ≤ p.budget) :
    add_claim p a d s =
      ({ p with interim_claims := p.interim_claims ++ [⟨a, d, s⟩]
                budget := p.budget - a }, true)
    ∧ (a = p.budget → (add_claim p a d s).1.budget = 0) := by
  have hb : ¬ p.budget < a := not_lt.mpr h
  refine ⟨by simp [add_claim, hb], fun he => ?_⟩
  simp [add_claim, hb, he]

/-- C1 instantiated: a claim of exactly the remaining 5000 is accepted
and leaves budget 0. -/
theorem add_claim_within_budget_witness :
    (5000 : ℚ) ≤ exP.budget ∧
    (add_claim exP 5000 exDate "Pending" =
      ({ exP with interim_claims := exP.interim_claims ++ [⟨5000, exDate, "Pending"⟩]
                  budget := exP.budget - 5000 }, true)
    ∧ ((5000 : ℚ) = exP.budget → (add_claim exP 5000 exDate "Pending").1.budget = 0)) :=
  ⟨le_refl _, add_claim_within_budget exP 5000 exDate "Pending" (le_refl _)⟩

/-! C2. -/

/-- C2: adding a claim whose amount exceeds the remaining budget is
rejected: the project (budget and ledger) is left unchanged, and the
claims-management loop reports the error message instead of a success
message. -/
theorem add_claim_exceeds_budget (p : Project) (rest : List Project)
    (a : ℚ) (d : Date) (s : String) (h : p.budget < a) :
    add_claim p a d s = (p, false)
    ∧ manage_interim_claims_add (p :: rest) p.id a d s =
        (p :: (manage_interim_claims_add rest p.id a d s).1,
         "Claim amount exceeds the remaining budget!"
           :: (manage_interim_claims_add rest p.id a d s).2) := by
  have h1 : add_claim p a d s = (p, false) := by simp [add_claim, h]
  exact ⟨h1, by simp [manage_interim_claims_add, h1]⟩

/-- C2 instantiated: a claim of 6000 against a budget of 5000 is
rejected without mutation. -/
theorem add_claim_exceeds_budget_witness :
    exP.budget < (6000 : ℚ) ∧
    (add_claim exP 6000 exDate "Pending" = (exP, false)
    ∧ manage_interim_claims_add [exP] exP.id 6000 exDate "Pending" =
        (exP :: (manage_interim_claims_add [] exP.id 6000 exDate "Pending").1,
         "Claim amount exceeds the remaining budget!"
           :: (manage_interim_claims_add [] exP.id 6000 exDate "Pending").2)) :=
  ⟨by norm_num [exP], add_claim_exceeds_budget exP [] 6000 exDate "Pending" (by norm_num [exP])⟩

/-! C7. -/

/-- C7: updating the status of the claim at a valid index overwrites
only that claim's status field — the claim list becomes `set i` of the
old one with the same amount and date at `i`, so every other claim, the
ledger length, the budget, and every other project field are unchanged,
whatever the old and new statuses are. -/
theorem update_status_frame (p : Project) (i : ℕ) (s : String)
    (h : i < p.interim_claims.length) :
    (update_status p i s).interim_claims =
      p.interim_claims.set i { p.interim_claims.get ⟨i, h⟩ with status := s }
    ∧ (update_status p i s).interim_claims.length = p.interim_claims.length
    ∧ (update_status p i s).budget = p.budget
    ∧ (update_status p i s).name = p.name
    ∧ (update_status p i s).id = p.id
    ∧ (update_status p i s).client = p.client
    ∧ (update_status p i s).start_date = p.start_date
    ∧ (update_status p i s).end_date = p.end_date
    ∧ (update_status p i s).progress = p.progress
    ∧ (update_status p i s).task_list = p.task_list
    ∧ (update_status p i s).reports = p.reports
    ∧ (update_status p i s).elements_progress = p.elements_progress := by
  refine ⟨?_, ?_, rfl, rfl, rfl, rfl, rfl, rfl, rfl, rfl, rfl, rfl⟩
  · exact setStatusAt_eq_set p.interim_claims i s h
  · exact setStatusAt_length p.interim_claims i s

/-- C7 instantiated: approving the first of two pending claims rewrites
only that entry. -/
theorem update_status_frame_witness :
    0 < exPC.interim_claims.length ∧
    ((update_status exPC 0 "Approved").interim_claims =
      exPC.interim_claims.set 0
        { exPC.interim_claims.get ⟨0, by decide⟩ with status := "Approved" }
    ∧ (update_status exPC 0 "Approved").interim_claims.length = exPC.interim_claims.length
    ∧ (update_status exPC 0 "Approved").budget = exPC.budget
    ∧ (update_status exPC 0 "Approved").name = exPC.name
    ∧ (update_status exPC 0 "Approved").id = exPC.id
    ∧ (update_status exPC 0 "Approved").client = exPC.client
    ∧ (update_status exPC 0 "Approved").start_date = exPC.start_date
    ∧ (update_status exPC 0 "Approved").end_date = exPC.end_date
    ∧ (update_status exPC 0 "Approved").progress = exPC.progress
    ∧ (update_status exPC 0 "Approved").task_list = exPC.task_list
    ∧ (update_status exPC 0 "Approved").reports = exPC.reports
    ∧ (update_status exPC 0 "Approved").elements_progress = exPC.elements_progress) :=
  ⟨by decide, update_status_frame exPC 0 "Approved" (by decide)⟩

/-! Rounding lemmas. -/

theorem roundHalfEven_nonneg {q : ℚ} (h : 0 ≤ q) : 0 ≤ roundHalfEven q := by
  have hf : (0 : ℤ) ≤ ⌊q⌋ := Int.le_floor.mpr (by exact_mod_cast h)
  unfold roundHalfEven
  split_ifs <;> omega

theorem roundHalfEven_le_intCast {q : ℚ} {n : ℤ} (h : q ≤ (n : ℚ)) :
    roundHalfEven q ≤ n := by
  have hfn : ⌊q⌋ ≤ n := by
    have := Int.floor_le_floor h
    simpa using this
  have hfl : (⌊q⌋ : ℚ) ≤ q := Int.floor_le q
  unfold roundHalfEven
  split_ifs with h1 h2 h3
  · exact hfn
  · by_contra hc
    have he : ⌊q⌋ = n := by omega
    rw [he] at h2
    linarith
  · exact hfn
  · by_contra hc
    have he : ⌊q⌋ = n := by omega
    have hr : (1 : ℚ)/2 = q - (⌊q⌋ : ℚ) := le_antisymm (not_lt.mp h1) (not_lt.mp h2)
    rw [he] at hr
    linarith

theorem round2_nonneg {x : ℚ} (h : 0 ≤ x) : 0 ≤ round2 x := by
  unfold round2
  have h1 : 0 ≤ roundHalfEven (x * 100) := roundHalfEven_nonneg (by positivity)
  have h2 : (0 : ℚ) ≤ ((roundHalfEven (x * 100) : ℤ) : ℚ) := by exact_mod_cast h1
  positivity

theorem round2_le_100 {x : ℚ} (h : x ≤ 100) : round2 x ≤ 100 := by
  unfold round2
  have h1 : roundHalfEven (x * 100) ≤ 10000 := by
    apply roundHalfEven_le_intCast
    push_cast
    linarith
  have h2 : ((roundHalfEven (x * 100) : ℤ) : ℚ) ≤ 10000 := by exact_mod_cast h1
  linarith

theorem round2_intCast (n : ℤ) : round2 ((n : ℚ)) = (n : ℚ) := by
  have hc : ((n : ℚ)) * 100 = (((n * 100 : ℤ)) : ℚ) := by push_cast; ring
  unfold round2
  rw [hc]
  have h1 : roundHalfEven (((n * 100 : ℤ)) : ℚ) = n * 100 := by
    unfold roundHalfEven
    rw [Int.floor_intCast]
    have hz : (((n * 100 : ℤ)) : ℚ) - (((n * 100 : ℤ)) : ℚ) = 0 := by ring
    rw [hz]
    norm_num
  rw [h1]
  push_cast
  field_simp

/-! C3. -/

/-- C3 fails as stated: for one element of progress 10 and weight -1 the
mapping is nonempty and the total weight is -1 ≠ 0, yet `update_progress`
returns 0 while the claimed formula gives `round(10·(-1)/(-1), 2) = 10` —
the code tests `total_weight > 0`, not `total_weight ≠ 0`. -/
theorem update_progress_formula_counterexample :
    negWeightP.elements_progress ≠ []
    ∧ totalWeight negWeightP.elements_progress ≠ 0
    ∧ update_progress negWeightP ≠
        round2 (weightedSum negWeightP.elements_progress
          / totalWeight negWeightP.elements_progress) := by
  refine ⟨by decide, by norm_num [totalWeight, negWeightP, exP], ?_⟩
  have h1 : update_progress negWeightP = 0 := by
    norm_num [update_progress, totalWeight, negWeightP, exP]
  have h2 : weightedSum negWeightP.elements_progress
      / totalWeight negWeightP.elements_progress = 10 := by
    norm_num [weightedSum, totalWeight, negWeightP, exP]
  rw [h1, h2]
  have h3 : round2 10 = 10 := by exact_mod_cast round2_intCast 10
  rw [h3]
  norm_num

/-- C3 amended: `update_progress` returns the rounded weighted average
when the total weight is positive, and 0 when the element mapping is
empty or the total weight is ≤ 0 (the code guards on `total_weight > 0`,
so a zero — or negative — total weight yields 0).  The embedding is a
pure function of the project, matching the claimed absence of side
effects. -/
theorem update_progress_spec (p : Project) :
    (p.elements_progress = [] → update_progress p = 0)
    ∧ (totalWeight p.elements_progress ≤ 0 → update_progress p = 0)
    ∧ (p.elements_progress ≠ [] → 0 < totalWeight p.elements_progress →
        update_progress p =
          round2 (weightedSum p.elements_progress / totalWeight p.elements_progress)) := by
  refine ⟨fun h => by simp [update_progress, h], fun h => ?_, fun h1 h2 => ?_⟩
  · unfold update_progress
    by_cases hl : p.elements_progress.length = 0
    · rw [if_pos hl]
    · rw [if_neg hl, if_neg (not_lt.mpr h)]
  · unfold update_progress
    rw [if_neg (by simpa using h1), if_pos h2]

/-- C3 amended, instantiated on the specification's own example
(`foundation: 50 at weight 2, roof: 100 at weight 1`). -/
theorem update_progress_spec_witness :
    specExP.elements_progress ≠ []
    ∧ 0 < totalWeight specExP.elements_progress
    ∧ update_progress specExP =
        round2 (weightedSum specExP.elements_progress
          / totalWeight specExP.elements_progress) :=
  ⟨by decide, by norm_num [totalWeight, specExP, exP],
    (update_progress_spec specExP).2.2 (by decide)
      (by norm_num [totalWeight, specExP, exP])⟩

/-! C4. -/

/-- C4 fails as stated: with no restriction on the element values, one
element of progress 200 and weight 1 makes `update_progress` return 200,
outside [0, 100]. -/
theorem update_progress_range_counterexample :
    100 < update_progress overP := by
  have h1 : update_progress overP = round2 ((200 : ℤ) : ℚ) := by
    norm_num [update_progress, totalWeight, weightedSum, overP, exP]
  rw [h1, round2_intCast]
  norm_num

/-- C4 amended: when every element's progress lies in [0, 100] and every
weight is non-negative, `update_progress` returns a value in [0, 100]
that is an integer multiple of 1/100 (two decimal places). -/
theorem update_progress_range (p : Project)
    (h : ∀ e ∈ p.elements_progress,
      0 ≤ e.2.progress ∧ e.2.progress ≤ 100 ∧ 0 ≤ e.2.weight) :
    0 ≤ update_progress p ∧ update_progress p ≤ 100
    ∧ ∃ k : ℤ, update_progress p = (k : ℚ) / 100 := by
  unfold update_progress
  split_ifs with hl hw
  · exact ⟨le_refl 0, by norm_num, 0, by norm_num⟩
  · have hS0 : 0 ≤ weightedSum p.elements_progress := by
      apply List.sum_nonneg
      intro x hx
      obtain ⟨e, he, rfl⟩ := List.mem_map.mp hx
      obtain ⟨hp0, _, hw0⟩ := h e he
      exact mul_nonneg hp0 hw0
    have hSle : weightedSum p.elements_progress ≤ 100 * totalWeight p.elements_progress := by
      have hle : (p.elements_progress.map (fun e => e.2.progress * e.2.weight)).sum ≤
          (p.elements_progress.map (fun e => 100 * e.2.weight)).sum := by
        apply List.sum_le_sum
        intro e he
        obtain ⟨_, hp100, hw0⟩ := h e he
        exact mul_le_mul_of_nonneg_right hp100 hw0
      calc weightedSum p.elements_progress
          ≤ (p.elements_progress.map (fun e => 100 * e.2.weight)).sum := hle
        _ = 100 * totalWeight p.elements_progress := List.sum_map_mul_left _ _ _
    have hq0 : 0 ≤ weightedSum p.elements_progress / totalWeight p.elements_progress :=
      div_nonneg hS0 (le_of_lt hw)
    have hq100 : weightedSum p.elements_progress / totalWeight p.elements_progress ≤ 100 := by
      rw [div_le_iff₀ hw]
      linarith
    exact ⟨round2_nonneg hq0, round2_le_100 hq100, roundHalfEven _, rfl⟩
  · exact ⟨le_refl 0, by norm_num, 0, by norm_num⟩

/-- C4 amended, instantiated on the specification's example. -/
theorem update_progress_range_witness :
    (∀ e ∈ specExP.elements_progress,
      0 ≤ e.2.progress ∧ e.2.progress ≤ 100 ∧ 0 ≤ e.2.weight)
    ∧ (0 ≤ update_progress specExP ∧ update_progress specExP ≤ 100
        ∧ ∃ k : ℤ, update_progress specExP = (k : ℚ) / 100) :=
  ⟨by decide, update_progress_range specExP (by decide)⟩

/-! C5. -/

/-- C5: when a date fails to parse, or both parse but the end date is
strictly before the start date, registration reports a user-facing
error and the project collection is returned unchanged. -/
theorem register_bad_dates (projects : List Project) (inputs : RegInputs)
    (h : parseDate inputs.startDate = none ∨ parseDate inputs.endDate = none ∨
      ∃ sd ed, parseDate inputs.startDate = some sd ∧
        parseDate inputs.endDate = some ed ∧ ed.isBefore sd = true) :
    (register_project projects inputs).1 = projects
    ∧ ∃ m, (register_project projects inputs).2 = RegOutcome.err m := by
  rcases h with h | h | ⟨sd, ed, h1, h2, h3⟩
  · simp [register_project, h]
  · cases hs : parseDate inputs.startDate with
    | none => simp [register_project, hs]
    | some sd => simp [register_project, hs, h]
  · simp [register_project, h1, h2, h3]

/-- C5 instantiated: end date 2024-01-01 before start date 2024-06-01. -/
theorem register_bad_dates_witness :
    (parseDate backwardsIn.startDate = none ∨ parseDate backwardsIn.endDate = none ∨
      ∃ sd ed, parseDate backwardsIn.startDate = some sd ∧
        parseDate backwardsIn.endDate = some ed ∧ ed.isBefore sd = true)
    ∧ ((register_project [] backwardsIn).1 = []
        ∧ ∃ m, (register_project [] backwardsIn).2 = RegOutcome.err m) :=
  ⟨Or.inr (Or.inr ⟨⟨2024, 6, 1⟩, ⟨2024, 1, 1⟩, by decide, by decide, by decide⟩),
    register_bad_dates [] backwardsIn
      (Or.inr (Or.inr ⟨⟨2024, 6, 1⟩, ⟨2024, 1, 1⟩, by decide, by decide, by decide⟩))⟩

/-! C6. -/

/-- C6: a budget that does not parse as a number, or parses to a value
≤ 0, makes registration fail with an error and no appended project;
and whenever registration does append a project, the parsed budget was
positive and is stored rounded to two decimal places. -/
theorem register_budget_validation (projects : List Project) (inputs : RegInputs) :
    ((parseFloat inputs.budget = none ∨ ∃ b, parseFloat inputs.budget = some b ∧ b ≤ 0) →
      (register_project projects inputs).1 = projects
      ∧ ∃ m, (register_project projects inputs).2 = RegOutcome.err m)
    ∧ (∀ q, (register_project projects inputs).1 = projects ++ [q] →
        ∃ b, parseFloat inputs.budget = some b ∧ 0 < b ∧ q.budget = round2 b) := by
  constructor
  · intro h
    unfold register_project
    cases hs : parseDate inputs.startDate with
    | none => simp
    | some sd =>
      cases he : parseDate inputs.endDate with
      | none => simp
      | some ed =>
        by_cases hb : ed.isBefore sd
        · simp [hb]
        · rcases h with h | ⟨b, hpb, hle⟩
          · simp [hb, h]
          · simp [hb, hpb, hle]
  · intro q hq
    cases hs : parseDate inputs.startDate with
    | none =>
      rw [show (register_project projects inputs).1 = projects from
        by simp [register_project, hs]] at hq
      exact absurd (congrArg List.length hq) (by simp)
    | some sd =>
      cases he : parseDate inputs.endDate with
      | none =>
        rw [show (register_project projects inputs).1 = projects from
          by simp [register_project, hs, he]] at hq
        exact absurd (congrArg List.length hq) (by simp)
      | some ed =>
        by_cases hb : ed.isBefore sd
        · rw [show (register_project projects inputs).1 = projects from
            by simp [register_project, hs, he, hb]] at hq
          exact absurd (congrArg List.length hq) (by simp)
        · cases hf : parseFloat inputs.budget with
          | none =>
            rw [show (register_project projects inputs).1 = projects from
              by simp [register_project, hs, he, hb, hf]] at hq
            exact absurd (congrArg List.length hq) (by simp)
          | some b =>
            by_cases hle : b ≤ 0
            · rw [show (register_project projects inputs).1 = projects from
                by simp [register_project, hs, he, hb, hf, hle]] at hq
              exact absurd (congrArg List.length hq) (by simp)
            · have hreg : (register_project projects inputs).1 =
                  projects ++ [mkProject inputs.projectName inputs.projectId
                    inputs.clientName sd ed (round2 b)] := by
                simp [register_project, hs, he, hb, hf, hle]
              rw [hreg] at hq
              have hmk := List.append_cancel_left hq
              simp only [List.cons.injEq] at hmk
              refine ⟨b, rfl, not_le.mp hle, ?_⟩
              rw [← hmk.1]
              rfl

/-- C6 instantiated both ways: budget "abc" fails with no append;
budget "10000" stores `round2 10000`. -/
theorem register_budget_validation_witness :
    ((parseFloat badBudgetIn.budget = none ∨
        ∃ b, parseFloat badBudgetIn.budget = some b ∧ b ≤ 0)
      ∧ ((register_project [] badBudgetIn).1 = []
          ∧ ∃ m, (register_project [] badBudgetIn).2 = RegOutcome.err m))
    ∧ ((register_project [] goodIn).1 = [] ++ [goodInP]
        ∧ ∃ b, parseFloat goodIn.budget = some b ∧ 0 < b ∧ goodInP.budget = round2 b) := by
  have hbad : parseFloat badBudgetIn.budget = none := by
    have h : parseFloatRepr "abc" = none := by decide
    show (parseFloatRepr "abc").map FloatRepr.val = none
    rw [h]
    rfl
  have hgoodr : parseFloatRepr "10000" = some ⟨false, 10000, 0, 0⟩ := by decide
  have hgood : parseFloat goodIn.budget = some (FloatRepr.val ⟨false, 10000, 0, 0⟩) := by
    show (parseFloatRepr "10000").map FloatRepr.val = _
    rw [hgoodr]
    rfl
  have hval : FloatRepr.val ⟨false, 10000, 0, 0⟩ = 10000 := by
    norm_num [FloatRepr.val]
  have happ : (register_project [] goodIn).1 = [] ++ [goodInP] := by
    have h1 : parseDate "2024-01-01" = some ⟨2024, 1, 1⟩ := by decide
    have h2 : parseDate "2024-06-01" = some ⟨2024, 6, 1⟩ := by decide
    have h3 : Date.isBefore ⟨2024, 6, 1⟩ ⟨2024, 1, 1⟩ = false := by decide
    have h4 : ¬ (FloatRepr.val ⟨false, 10000, 0, 0⟩ ≤ 0) := by rw [hval]; norm_num
    have h5 : parseFloat "10000" = some (FloatRepr.val ⟨false, 10000, 0, 0⟩) := by
      show (parseFloatRepr "10000").map FloatRepr.val = _
      rw [hgoodr]
      rfl
    simp [register_project, h1, h2, h3, h5, h4, goodInP, goodIn]
  exact ⟨⟨Or.inl hbad, (register_budget_validation [] badBudgetIn).1 (Or.inl hbad)⟩,
    ⟨happ, (register_budget_validation [] goodIn).2 goodInP happ⟩⟩

/-! C8. -/

/-- C8: the storage path is computed deterministically as
`project_docs/<project_id>/<filename>`; uploading twice with the same
filename to the same project writes to that same path both times, so
the filesystem holds exactly one entry for it (the second content),
while the project's `reports` list gains the path twice. -/
theorem upload_same_filename_twice (fs : FS) (p : Project) (fname : String)
    (c1 c2 : Bytes) :
    doc_path p.id fname = "project_docs/" ++ p.id ++ "/" ++ fname
    ∧ (upload_one fs p fname c1).2.id = p.id
    ∧ (upload_one (upload_one fs p fname c1).1
        (upload_one fs p fname c1).2 fname c2).2.reports
        = p.reports ++ [doc_path p.id fname, doc_path p.id fname]
    ∧ fsRead (upload_one (upload_one fs p fname c1).1
        (upload_one fs p fname c1).2 fname c2).1 (doc_path p.id fname) = some c2
    ∧ (upload_one (upload_one fs p fname c1).1
        (upload_one fs p fname c1).2 fname c2).1.countP
          (fun e => e.1 = doc_path p.id fname) = 1 := by
  refine ⟨rfl, rfl, by simp [upload_one], ?_, ?_⟩
  · simp [upload_one, fsWrite, fsRead]
  · have h0 : ∀ l : FS, (l.filter (fun e => e.1 ≠ doc_path p.id fname)).countP
        (fun e => e.1 = doc_path p.id fname) = 0 := by
      intro l
      rw [List.countP_eq_zero]
      intro a ha
      have h2 := (List.mem_filter.mp ha).2
      simpa using h2
    simp [upload_one, fsWrite, List.countP_cons, h0]

/-! C9. -/

theorem applyClaimOp_invariant (p : Project) (op : ClaimOp) :
    (applyClaimOp p op).budget + total_claims (applyClaimOp p op)
        = p.budget + total_claims p
    ∧ (0 ≤ p.budget → 0 ≤ (applyClaimOp p op).budget) := by
  cases op with
  | add a d s =>
    by_cases h : p.budget < a
    · simp [applyClaimOp, add_claim, h]
    · have hle := not_lt.mp h
      refine ⟨by simp [applyClaimOp, add_claim, h, total_claims], fun hp => ?_⟩
      have hb : (applyClaimOp p (ClaimOp.add a d s)).budget = p.budget - a := by
        simp [applyClaimOp, add_claim, h]
      rw [hb]
      linarith
  | setStatus i s =>
    simp [applyClaimOp, update_status, total_claims, setStatusAt_map_amount]

theorem foldl_claimOps_invariant (ops : List ClaimOp) (p : Project) :
    (ops.foldl applyClaimOp p).budget + total_claims (ops.foldl applyClaimOp p)
        = p.budget + total_claims p
    ∧ (0 ≤ p.budget → 0 ≤ (ops.foldl applyClaimOp p).budget) := by
  induction ops generalizing p with
  | nil => simp
  | cons op rest ih =>
    simp only [List.foldl_cons]
    obtain ⟨h1, h2⟩ := applyClaimOp_invariant p op
    obtain ⟨ih1, ih2⟩ := ih (applyClaimOp p op)
    exact ⟨by rw [ih1, h1], fun hp => ih2 (h2 hp)⟩

/-- C9: for a freshly registered project with initial budget `B ≥ 0`,
after any sequence of claims-ledger interactions (adds, failed or
successful, and status updates) with non-negative requested amounts,
the remaining budget plus the sum of all recorded claim amounts equals
`B`, and the budget is never negative. -/
theorem budget_conservation (name id client : String) (sd ed : Date) (B : ℚ)
    (ops : List ClaimOp) (hB : 0 ≤ B)
    (hnn : ∀ op ∈ ops, 0 ≤ op.reqAmount) :
    (ops.foldl applyClaimOp (mkProject name id client sd ed B)).budget
        + total_claims (ops.foldl applyClaimOp (mkProject name id client sd ed B)) = B
    ∧ 0 ≤ (ops.foldl applyClaimOp (mkProject name id client sd ed B)).budget := by
  obtain ⟨h1, h2⟩ := foldl_claimOps_invariant ops (mkProject name id client sd ed B)
  have hb0 : (mkProject name id client sd ed B).budget = B := rfl
  have ht0 : total_claims (mkProject name id client sd ed B) = 0 := by
    simp [total_claims, mkProject]
  refine ⟨?_, h2 (by rw [hb0]; exact hB)⟩
  rw [h1, hb0, ht0, add_zero]

/-- C9 instantiated on the specification's example: budget 10000,
claim 3000 accepted, claim 8000 rejected, first claim approved:
budget 7000 + claims 3000 = 10000 and the budget stayed non-negative. -/
theorem budget_conservation_witness :
    (0 : ℚ) ≤ 10000
    ∧ (∀ op ∈ [ClaimOp.add 3000 exDate "Pending", ClaimOp.add 8000 exDate "Pending",
        ClaimOp.setStatus 0 "Approved"], 0 ≤ op.reqAmount)
    ∧ (([ClaimOp.add 3000 exDate "Pending", ClaimOp.add 8000 exDate "Pending",
          ClaimOp.setStatus 0 "Approved"].foldl applyClaimOp
          (mkProject "Bridge" "P1" "Acme" ⟨2024, 1, 1⟩ ⟨2024, 6, 1⟩ 10000)).budget
        + total_claims ([ClaimOp.add 3000 exDate "Pending",
            ClaimOp.add 8000 exDate "Pending",
            ClaimOp.setStatus 0 "Approved"].foldl applyClaimOp
            (mkProject "Bridge" "P1" "Acme" ⟨2024, 1, 1⟩ ⟨2024, 6, 1⟩ 10000)) = 10000
      ∧ 0 ≤ ([ClaimOp.add 3000 exDate "Pending", ClaimOp.add 8000 exDate "Pending",
          ClaimOp.setStatus 0 "Approved"].foldl applyClaimOp
          (mkProject "Bridge" "P1" "Acme" ⟨2024, 1, 1⟩ ⟨2024, 6, 1⟩ 10000)).budget) :=
  ⟨by norm_num, by decide,
    budget_conservation "Bridge" "P1" "Acme" ⟨2024, 1, 1⟩ ⟨2024, 6, 1⟩ 10000
      [ClaimOp.add 3000 exDate "Pending", ClaimOp.add 8000 exDate "Pending",
        ClaimOp.setStatus 0 "Approved"] (by norm_num) (by decide)⟩

/-! C10. -/

/-- C10: when no project in the collection carries the given id, the
task-management, claims-management (add and status update), and
document-upload operations leave every project unchanged, write no
file, and emit no message at all. -/
theorem unknown_project_noop (projects : List Project) (project_id : String)
    (t : Task) (a : ℚ) (d : Date) (s : String) (i : ℕ) (ns : String)
    (fs : FS) (fname : String) (content : Bytes)
    (h : ∀ p ∈ projects, p.id ≠ project_id) :
    manage_tasks_add projects project_id t = (projects, [])
    ∧ manage_interim_claims_add projects project_id a d s = (projects, [])
    ∧ manage_interim_claims_update projects project_id i ns = (projects, [])
    ∧ upload_project_document fs projects project_id fname content = (fs, projects, []) := by
  induction projects with
  | nil =>
    simp [manage_tasks_add, manage_interim_claims_add,
      manage_interim_claims_update, upload_project_document]
  | cons p rest ih =>
    have hp : p.id ≠ project_id := h p (List.mem_cons_self p rest)
    have hr := ih (fun q hq => h q (List.mem_cons_of_mem p hq))
    simp [manage_tasks_add, manage_interim_claims_add,
      manage_interim_claims_update, upload_project_document,
      hp, hr.1, hr.2.1, hr.2.2.1, hr.2.2.2]

/-- C10 instantiated: id "ZZZ" matches no project. -/
theorem unknown_project_noop_witness :
    (∀ p ∈ [exP], p.id ≠ "ZZZ")
    ∧ (manage_tasks_add [exP] "ZZZ" ⟨"t", "Not Started", "x", exDate⟩ = ([exP], [])
    ∧ manage_interim_claims_add [exP] "ZZZ" 100 exDate "Pending" = ([exP], [])
    ∧ manage_interim_claims_update [exP] "ZZZ" 0 "Approved" = ([exP], [])
    ∧ upload_project_document [] [exP] "ZZZ" "r.pdf" [1, 2] = ([], [exP], [])) :=
  ⟨by decide,
    unknown_project_noop [exP] "ZZZ" ⟨"t", "Not Started", "x", exDate⟩ 100 exDate
      "Pending" 0 "Approved" [] "r.pdf" [1, 2] (by decide)⟩

end Civitas
